import Mathlib

/-!
Shallow embedding of `src/examples/test01.cpp` (cpplinter example fixture):
the free functions `add` and `strlength`, the `Node` accessor class, the
entry point `main`, and the constant `CLANG_INDEX`.

Modelling conventions:
- C `int` is embedded as `Int` (the spec treats signed overflow as undefined
  behavior and explicitly not part of the contract, so values are unbounded).
- C `float` is embedded as `Rat`; the C cast `(int) z` truncates toward zero,
  embedded as `truncQ` below.
- The null-terminated character array of `strlength` is embedded twice,
  faithful to the same loop: once over `List Char` by structural recursion
  (`strlength`), and once as the literal `while` loop over an unbounded
  sequence `Nat → Char` with an explicit step count (`strlengthFuel`), used
  to state termination of the scan.
- `main` performs exactly two writes to standard output and returns
  `CLANG_INDEX`; it is embedded as the pure pair of its output events and
  its exit status.
-/

/-- The character sentinel written in the source as the literal 0 character. -/
def nullChar : Char := Char.ofNat 0

/-- Truncation toward zero of a rational, the semantics of the C cast
`(int) z`: division rounding toward zero, applied to numerator and
denominator of the reduced fraction. -/
def truncQ (q : ℚ) : ℤ :=
  Int.tdiv q.num (q.den : ℤ)

/-- Embedding of `int add(int x, int y, float z)` from test01.cpp lines 43-50:
`if (x > 0) return (int) z; else if (y <= 0 && z >= 100.0) return x * 2 * y;
return 0;`. -/
def add (x y : ℤ) (z : ℚ) : ℤ :=
  if x > 0 then truncQ z
  else if y ≤ 0 ∧ z ≥ 100 then x * 2 * y
  else 0

/-- Embedding of `int strlength(const char seq[])` from test01.cpp lines
52-58 over a finite list: scan from the head, counting characters until the
first sentinel. (The C code never reads past the first sentinel; an input
with no sentinel is undefined behavior in the source, and the empty-list
value is irrelevant to every claim.) -/
def strlength : List Char → Nat
  | [] => 0
  | c :: rest => if c = nullChar then 0 else strlength rest + 1

/-- The `while (seq[i] != 0) i++;` loop of `strlength` as a step-indexed
function over an unbounded character sequence: from index `i`, with `fuel`
permitted further iterations, return the index of the sentinel the loop
halts at, or `none` if the loop is still running when the fuel runs out. -/
def strlengthFuel (seq : ℕ → Char) (i : ℕ) : ℕ → Option ℕ
  | 0 => if seq i = nullChar then some i else none
  | fuel + 1 => if seq i = nullChar then some i else strlengthFuel seq (i + 1) fuel

/-- Embedding of `class Node` from test01.cpp lines 5-14: two private
integer fields `x` and `y`. -/
structure Node where
  x : ℤ
  y : ℤ

/-- `void Node::setX(int x) { this->x = x; }` (lines 16-18). -/
def Node.setX (n : Node) (v : ℤ) : Node := { n with x := v }

/-- `void Node::setY(int y) { this->y = y; }` (lines 20-22). -/
def Node.setY (n : Node) (v : ℤ) : Node := { n with y := v }

/-- `void Node::setXY(int x, int y) { this->setX(x); this->setY(y); }`
(lines 24-27). -/
def Node.setXY (n : Node) (a b : ℤ) : Node := (n.setX a).setY b

/-- `int Node::getX() { return this->x; }` (lines 29-31). -/
def Node.getX (n : Node) : ℤ := n.x

/-- `int Node::getY() { return this->y; }` (lines 33-35). -/
def Node.getY (n : Node) : ℤ := n.y

/-- `const int CLANG_INDEX = 0;` (line 3). -/
def CLANG_INDEX : ℤ := 0

/-- Embedding of `int main()` (lines 38-41): the list of strings written to
standard output, in order, paired with the returned exit status.
`std::cout << "Hello, world!" << '\n'` performs exactly the two writes. -/
def mainRun : List String × ℤ :=
  (["Hello, world!", "\n"], CLANG_INDEX)

/-- C1: for every integer `x > 0`, every integer `y`, and every float `z`,
`add(x, y, z)` returns `z` converted to an integer by truncation toward
zero. -/
theorem add_pos_truncates (x y : ℤ) (z : ℚ) (hx : x > 0) :
    add x y z = truncQ z := by
  simp [add, hx]

/-- Witness for C1 at the spec example `add(5, -3, 2.9)`: the hypothesis
`5 > 0` holds, the truncation branch is taken, and the result is 2. -/
theorem add_pos_truncates_witness :
    add 5 (-3) (29 / 10) = truncQ (29 / 10) ∧ add 5 (-3) (29 / 10) = 2 :=
  ⟨add_pos_truncates 5 (-3) (29 / 10) (by decide),
   by norm_num [add, truncQ]; decide⟩

/-- C2: for every integer `x ≤ 0`, every integer `y ≤ 0`, and every float
`z ≥ 100.0`, `add(x, y, z)` returns the product `x * 2 * y`. -/
theorem add_second_branch (x y : ℤ) (z : ℚ)
    (hx : x ≤ 0) (hy : y ≤ 0) (hz : z ≥ 100) :
    add x y z = x * 2 * y := by
  have hx' : ¬ x > 0 := not_lt.mpr hx
  simp [add, hx', hy, hz]

/-- Witness for C2 at the spec example `add(-1, -2, 150.0)`: the hypotheses
hold and the result is `(-1) * 2 * (-2) = 4`. -/
theorem add_second_branch_witness :
    add (-1) (-2) 150 = (-1) * 2 * (-2) ∧ add (-1) (-2) 150 = 4 :=
  ⟨add_second_branch (-1) (-2) 150 (by decide) (by decide) (by norm_num),
   by norm_num [add]⟩

/-- C3: for every integer `x ≤ 0` and every `(y, z)` that does not satisfy
both `y ≤ 0` and `z ≥ 100.0`, `add(x, y, z)` returns 0. -/
theorem add_default_branch (x y : ℤ) (z : ℚ)
    (hx : x ≤ 0) (h : ¬ (y ≤ 0 ∧ z ≥ 100)) :
    add x y z = 0 := by
  have hx' : ¬ x > 0 := not_lt.mpr hx
  simp [add, hx', h]

/-- Witness for C3 at the spec example `add(-1, 5, 150.0)`: neither branch
applies and the result is 0. -/
theorem add_default_branch_witness : add (-1) 5 150 = 0 :=
  add_default_branch (-1) 5 150 (by decide) (by norm_num)

/-- C4: for every character sequence whose first sentinel occurs at index
`n` (no earlier occurrence), `strlength` returns `n`. -/
theorem strlength_first_sentinel (s : List Char) (n : ℕ)
    (hn : s[n]? = some nullChar)
    (hbefore : ∀ i, i < n → s[i]? ≠ some nullChar) :
    strlength s = n := by
  induction s generalizing n with
  | nil => simp at hn
  | cons c rest ih =>
    cases n with
    | zero =>
      simp only [List.getElem?_cons_zero, Option.some.injEq] at hn
      simp [strlength, hn]
    | succ m =>
      have hc : c ≠ nullChar := by
        have h0 := hbefore 0 (Nat.succ_pos m)
        simpa using h0
      have hn' : rest[m]? = some nullChar := by simpa using hn
      have hb' : ∀ i, i < m → rest[i]? ≠ some nullChar := by
        intro i hi
        have h := hbefore (i + 1) (by omega)
        simpa using h
      simp [strlength, hc, ih m hn' hb']

/-- Witness for C4 at the spec example `strlength("abc")`: the C string is
the four characters `a`, `b`, `c`, sentinel, its first sentinel is at index
3, and the result is 3. -/
theorem strlength_first_sentinel_witness :
    strlength ['a', 'b', 'c', nullChar] = 3 :=
  strlength_first_sentinel ['a', 'b', 'c', nullChar] 3 (by decide) (by decide)

/-- Helper for C5: started at index `i` with `fuel` permitted further
iterations, the scanning loop halts exactly at the first sentinel when that
sentinel lies `fuel` positions ahead. -/
theorem strlengthFuel_reaches (seq : ℕ → Char) (fuel : ℕ) :
    ∀ i, seq (i + fuel) = nullChar →
    (∀ j, j < fuel → seq (i + j) ≠ nullChar) →
    strlengthFuel seq i fuel = some (i + fuel) := by
  induction fuel with
  | zero =>
    intro i hn _
    simp only [Nat.add_zero] at hn
    simp [strlengthFuel, hn]
  | succ m ih =>
    intro i hn hbefore
    have hc : seq i ≠ nullChar := by
      have h0 := hbefore 0 (Nat.succ_pos m)
      simpa using h0
    have hn' : seq (i + 1 + m) = nullChar := by
      have e : i + 1 + m = i + (m + 1) := by omega
      rw [e]; exact hn
    have hb' : ∀ j, j < m → seq (i + 1 + j) ≠ nullChar := by
      intro j hj
      have h := hbefore (j + 1) (by omega)
      have e : i + 1 + j = i + (j + 1) := by omega
      rw [e]; exact h
    have hrec := ih (i + 1) hn' hb'
    have e2 : i + (m + 1) = i + 1 + m := by omega
    rw [e2]
    simp only [strlengthFuel, if_neg hc]
    exact hrec

/-- C5: under the precondition that the scanned sequence contains a sentinel
at some index `n` with none earlier, the scanning loop of `strlength`
terminates: started at index 0, after at most `n` further iterations it
halts, at the first sentinel position. -/
theorem strlength_loop_terminates (seq : ℕ → Char) (n : ℕ)
    (hn : seq n = nullChar) (hbefore : ∀ i, i < n → seq i ≠ nullChar) :
    strlengthFuel seq 0 n = some n := by
  have h := strlengthFuel_reaches seq n 0
    (by simpa using hn) (by simpa using hbefore)
  simpa using h

/-- Witness for C5 on the sequence holding `a` at indices 0, 1, 2 and the
sentinel from index 3 on: the loop halts at index 3. -/
theorem strlength_loop_terminates_witness :
    strlengthFuel (fun i => if i < 3 then 'a' else nullChar) 0 3 = some 3 :=
  strlength_loop_terminates (fun i => if i < 3 then 'a' else nullChar) 3
    (by decide) (by decide)

/-- C6: for every prior state of a `Node` and all integers `a`, `b`, after
`setXY(a, b)` the getter `getX` returns `a` and `getY` returns `b`. -/
theorem setXY_getX_getY (n : Node) (a b : ℤ) :
    (n.setXY a b).getX = a ∧ (n.setXY a b).getY = b :=
  ⟨rfl, rfl⟩

/-- C7: `setXY(n, a, b)` yields exactly the state produced by `setX(n, a)`
followed by `setY(n, b)`: the composite setter equals the composition of the
two individual setters. -/
theorem setXY_eq_setX_then_setY (n : Node) (a b : ℤ) :
    n.setXY a b = (n.setX a).setY b :=
  rfl

/-- C8: `main` writes exactly the two output events `"Hello, world!"` and
the newline — together the one literal line `"Hello, world!\n"` — and
returns the constant exit status 0. -/
theorem main_output_and_status :
    mainRun.1 = ["Hello, world!", "\n"] ∧
    String.join mainRun.1 = "Hello, world!\n" ∧
    mainRun.2 = 0 :=
  ⟨rfl, rfl, rfl⟩

/-- C9: `setX` leaves the field `y` unchanged and `setY` leaves the field
`x` unchanged: each setter modifies only its own field. -/
theorem setters_modify_only_own_field (n : Node) (v : ℤ) :
    (n.setX v).getY = n.getY ∧ (n.setY v).getX = n.getX :=
  ⟨rfl, rfl⟩

/-- C10: immediately after `setX(v)` the getter `getX` returns `v`, and
immediately after `setY(v)` the getter `getY` returns `v`, from any prior
state and without the other field having been set. -/
theorem setter_getter_roundtrip (n : Node) (v : ℤ) :
    (n.setX v).getX = v ∧ (n.setY v).getY = v :=
  ⟨rfl, rfl⟩
